import Mathlib

/-!
# Verification of the AWS Backup Actions framework

A shallow embedding of the repository's workflow logic:

* the `snapshotMetadata` Lambda handler (`src/functions/snapshotMetadata/snapshotMetadata.ts`),
* the outer AWS Backup Actions state machine (`src/lib/aws-backup-actions-stack.ts`),
* the EBS backup state machine (`EBSBackupMachine`),
* the RDS/Aurora and DynamoDB export polling loops
  (`RDSExportMachine`, `DDBExportMachine`).

Strings are modelled as Lean `String`s; the character-level algorithms the
handler relies on (JavaScript `String.prototype.split`, `Array.prototype.join`,
`String.prototype.padStart`, `Number.prototype.toString`, and the UTC calendar
fields of `Date`) are embedded as executable functions on `List Char` / `Nat` /
`Int` below.
-/

namespace BackupActions

/-! ## JavaScript string primitives -/

/-- Prepend a character onto the first chunk of a chunk list. -/
def consHead (x : Char) : List (List Char) → List (List Char)
  | [] => [[x]]
  | h :: t => (x :: h) :: t

/-- `s.split(c)` for a single-character separator, on character lists.
Always returns a non-empty list of separator-free chunks, exactly like the
JavaScript method (`"".split(",") == [""]`, `":".split(":") == ["",""]`). -/
def splitOnChar (c : Char) : List Char → List (List Char)
  | [] => [[]]
  | x :: xs =>
    if x = c then [] :: splitOnChar c xs else consHead x (splitOnChar c xs)

/-- `parts.join(c)` for a single-character separator, on character lists. -/
def joinChar (c : Char) : List (List Char) → List Char
  | [] => []
  | [p] => p
  | p :: q :: t => p ++ c :: joinChar c (q :: t)

/-- `s.padStart(w, c)`: left-pad `s` with `c` up to width `w`. -/
def padStart (w : Nat) (c : Char) (s : List Char) : List Char :=
  List.replicate (w - s.length) c ++ s

/-- Decimal digits of `n`, least-significant first, via explicit fuel so the
definition is structural (and hence evaluable by the kernel).  With fuel
`n + 1` the fuel never runs out. -/
def natToDecRevAux : Nat → Nat → List Char
  | 0, _ => []
  | f + 1, n =>
    if n < 10 then [Nat.digitChar n]
    else Nat.digitChar (n % 10) :: natToDecRevAux f (n / 10)

/-- Decimal digits of `n`, least-significant first. -/
def natToDecRev (n : Nat) : List Char :=
  natToDecRevAux (n + 1) n

/-- JavaScript `n.toString()` for a non-negative integer, as characters. -/
def natToDec (n : Nat) : List Char :=
  (natToDecRev n).reverse

/-- JavaScript `z.toString()` for an integer, as characters. -/
def intToDec (z : Int) : List Char :=
  if z < 0 then '-' :: natToDec z.natAbs else natToDec z.toNat

/-- Value of a decimal digit character. -/
def digitVal (c : Char) : Nat := c.toNat - 48

/-- Parse a least-significant-first digit list back to a number
(left inverse of `natToDecRev`). -/
def decRevToNat : List Char → Nat
  | [] => 0
  | d :: ds => digitVal d + 10 * decRevToNat ds

/-- Left inverse of `fun n => padStart w '0' (natToDec n)`: strip leading
zeros and parse the remaining decimal digits. -/
def unpadDec (s : List Char) : Nat :=
  let t := s.dropWhile (fun c => c = '0')
  decRevToNat t.reverse

/-! ## UTC calendar fields

`new Date(ms)` with `getUTCFullYear() / getUTCMonth() + 1 / getUTCDate()`:
days since the Unix epoch are `⌊ms / 86400000⌋`, and the civil (proleptic
Gregorian) date of a day number is computed by the standard
days-to-civil-date algorithm.  The returned month is 1-based, i.e. it is the
source's `getUTCMonth() + 1`. -/

/-- Civil UTC date `(year, month, day)` of a day count relative to
1970-01-01, month 1-based. -/
def civilFromDays (z0 : Int) : Int × Nat × Nat :=
  let z := z0 + 719468
  let era : Int := Int.fdiv z 146097
  let doe : Nat := (z - era * 146097).toNat
  let yoe : Nat := (doe - doe / 1460 + doe / 36524 - doe / 146096) / 365
  let y : Int := (yoe : Int) + era * 400
  let doy : Nat := doe - (365 * yoe + yoe / 4 - yoe / 100)
  let mp : Nat := (5 * doy + 2) / 153
  let d : Nat := doy - (153 * mp + 2) / 5 + 1
  let m : Nat := if mp < 10 then mp + 3 else mp - 9
  (if m ≤ 2 then y + 1 else y, m, d)

/-- Epoch milliseconds of the event's `creationDate`, as computed at
`snapshotMetadata.ts:92-95`: `seconds * 1000 + nanos / 1000000`. -/
def creationMs (seconds nanos : Int) : Int :=
  seconds * 1000 + Int.fdiv nanos 1000000

/-- UTC `(year, month, day)` of the event's `creationDate`. -/
def creationUTCDate (seconds nanos : Int) : Int × Nat × Nat :=
  civilFromDays (Int.fdiv (creationMs seconds nanos) 86400000)

/-! ## String-level wrappers -/

/-- JavaScript `s.split(c)` on `String`s. -/
def jsSplit (c : Char) (s : String) : List String :=
  (splitOnChar c s.data).map String.mk

/-- JavaScript `parts.join(c)` on `String`s. -/
def jsJoin (c : Char) (l : List String) : String :=
  String.mk (joinChar c (l.map String.data))

/-! ## The snapshot-metadata Lambda handler

`src/functions/snapshotMetadata/snapshotMetadata.ts`, `exports.metadataHandler`.

The handler's interactions with the outside world are made explicit:

* `AwsEnv` carries the environment variables (`VALIDAZS`, `BUCKET`) and the
  results the AWS SDK calls would produce if they were awaited;
* the single `Math.random()` sample is the parameter `rand`;
* the returned value is paired with the list of SDK calls the handler issues,
  in program order.

One point needs care to stay faithful to the source: in the `"Aurora"` and
`"RDS"` switch cases the handler builds `metadataPromise` / `tagdataPromise`
and registers a `Promise.all([...]).then(...)` callback, but never awaits it
(`snapshotMetadata.ts:126-131, 145-150`).  Between the `break` and the
`return` statement there is no `await`, so the callback cannot have run when
the return object is built: the returned `Tags` and `Engine` are the
initializers `[]` and `""`, and a rejected fetch does not make the handler
throw.  The embedding therefore records the two calls as issued but leaves
`tags`/`engine` at their initial values and ignores fetch failures in those
two cases. -/

/-- A key/value tag, as returned by the tag-listing APIs. -/
structure Tag where
  key : String
  value : String
deriving DecidableEq, Repr

/-- An SDK call issued by the handler, in program order. -/
inductive AwsCall
  | listBuckets
  | ec2DescribeTags (resourceId : String)
  | rdsDescribeDBClusterSnapshots (arn : String)
  | rdsDescribeDBSnapshots (arn : String)
  | rdsListTagsForResource (arn : String)
  | ddbListTagsOfResource (arn : String)
deriving DecidableEq, Repr

instance {ε α : Type} [DecidableEq ε] [DecidableEq α] :
    DecidableEq (Except ε α) := fun x y =>
  match x, y with
  | .ok a, .ok b =>
    if h : a = b then .isTrue (by rw [h]) else .isFalse (by simp [h])
  | .error a, .error b =>
    if h : a = b then .isTrue (by rw [h]) else .isFalse (by simp [h])
  | .ok _, .error _ => .isFalse (by simp)
  | .error _, .ok _ => .isFalse (by simp)

/-- Environment of one handler invocation: configuration plus the results
the awaited SDK calls would yield (`Except.error` models a rejected
promise). -/
structure AwsEnv where
  validAzs : String
  bucket : String
  /-- Whether `listBuckets` reports the configured bucket among the
  account's buckets (`checkBucketOwner`). -/
  bucketOwned : Bool
  ec2Tags : Except String (List Tag)
  rdsEngine : Except String String
  rdsTags : Except String (List Tag)
  ddbTags : Except String (List Tag)
deriving DecidableEq, Repr

/-- The event's `detail.serviceEventDetails` payload. -/
structure ServiceEventDetails where
  backupJobId : String
  backupVaultName : String
  resourceType : String
  resourceArn : String
  recoveryPointArn : String
  state : String
  creationDateSeconds : Int
  creationDateNanos : Int
deriving DecidableEq, Repr

/-- The handler's return value (the `SnapshotMetadata` interface). -/
structure SnapshotMetadata where
  AvailabilityZone : String
  SnapshotArn : String
  SnapshotId : String
  ResourceType : String
  BackupVaultName : String
  ResourceArn : String
  S3BucketName : String
  S3Prefix : String
  CreationDate : String
  Tags : List Tag
  Engine : String
deriving DecidableEq, Repr

/-- Outcome of a handler invocation: the resolved value or a thrown error
(`Error` and failed `assert` alike, carrying the message). -/
inductive HandlerResult
  | ok (m : SnapshotMetadata)
  | error (msg : String)
deriving DecidableEq, Repr

/-- Vault-name check of `snapshotMetadata.ts:67`:
`/^[a-zA-Z0-9\-\_]{2,50}$/`. -/
def vaultNameOk (s : String) : Bool :=
  2 ≤ s.length && s.length ≤ 50 &&
    s.data.all fun c => c.isAlpha || c.isDigit || c = '-' || c = '_'

/-- Modelled from the spec: `ARN.validate` of `@aws-sdk/util-arn-parser`,
a dependency whose source is not part of this repository.  Per the spec's
"ARN-syntax validation", an ARN is a string starting with `arn:` that has at
least six `:`-separated segments. -/
def arnValidate (s : String) : Bool :=
  "arn:".data.isPrefixOf s.data && 6 ≤ (jsSplit ':' s).length

/-- The `S3Prefix` computation of `snapshotMetadata.ts:179-185`:
`[...resourceArn.split(":"), "Y=" + ..., "M=" + ..., "D=" + ..., backupJobId].join("/")`
with the year/month/day taken from the UTC fields of `creationDate` and
zero-padded to widths 4/2/2. -/
def s3PrefixChars (arn : List Char) (seconds nanos : Int) (jobId : List Char) :
    List Char :=
  joinChar '/'
    (splitOnChar ':' arn ++
      [('Y' :: '=' :: padStart 4 '0' (intToDec (creationUTCDate seconds nanos).1)),
       ('M' :: '=' :: padStart 2 '0' (natToDec (creationUTCDate seconds nanos).2.1)),
       ('D' :: '=' :: padStart 2 '0' (natToDec (creationUTCDate seconds nanos).2.2)),
       jobId])

/-- The `SnapshotId` computation of `snapshotMetadata.ts:172-174`:
`recoveryPointArn.split("/").slice(-1)[0]`. -/
def snapshotIdChars (arn : List Char) : List Char :=
  (splitOnChar '/' arn).getLastD []

/-- The `AvailabilityZone` computation of `snapshotMetadata.ts:170`:
`azlist[Math.floor(Math.random() * azlist.length)]`, with the
`Math.random()` sample `rand ∈ [0, 1)` made explicit. -/
def azChoice (validAzs : String) (rand : ℚ) : String :=
  let azlist := jsSplit ',' validAzs
  azlist.getD (Int.toNat ⌊rand * azlist.length⌋) ""

/-- ISO-8601 UTC rendering of `creationDate` (`Date.prototype.toISOString`). -/
def isoString (seconds nanos : Int) : String :=
  let ms := creationMs seconds nanos
  let ymd := civilFromDays (Int.fdiv ms 86400000)
  let rem : Nat := (ms - Int.fdiv ms 86400000 * 86400000).toNat
  String.mk
    (padStart 4 '0' (intToDec ymd.1) ++ '-' ::
     padStart 2 '0' (natToDec ymd.2.1) ++ '-' ::
     padStart 2 '0' (natToDec ymd.2.2) ++ 'T' ::
     padStart 2 '0' (natToDec (rem / 3600000)) ++ ':' ::
     padStart 2 '0' (natToDec (rem / 60000 % 60)) ++ ':' ::
     padStart 2 '0' (natToDec (rem / 1000 % 60)) ++ '.' ::
     padStart 3 '0' (natToDec (rem % 1000)) ++ ['Z'])

/-- Result of the `switch (resourceType)` statement: either a thrown error,
or the `(tags, engine)` values in scope at the `return` statement together
with the SDK calls the case issued. -/
def resourceSwitch (env : AwsEnv) (ev : ServiceEventDetails) :
    Except String (List Tag × String × List AwsCall) :=
  if ev.resourceType = "EBS" then
    -- `await ec2.describeTags(...)`, filtering on `resourceArn.split("/")[1]`
    let rid := (jsSplit '/' ev.resourceArn).getD 1 ""
    match env.ec2Tags with
    | .error e => .error e
    | .ok t => .ok (t, "", [.ec2DescribeTags rid])
  else if ev.resourceType = "Aurora" then
    -- the `Promise.all(...).then` callback is registered but never awaited:
    -- `tags`/`engine` keep their initial values and failures are not observed
    .ok ([], "",
      [.rdsDescribeDBClusterSnapshots ev.resourceArn,
       .rdsListTagsForResource ev.resourceArn])
  else if ev.resourceType = "RDS" then
    .ok ([], "",
      [.rdsDescribeDBSnapshots ev.resourceArn,
       .rdsListTagsForResource ev.resourceArn])
  else if ev.resourceType = "DynamoDB" then
    match env.ddbTags with
    | .error e => .error e
    | .ok t => .ok (t, "", [.ddbListTagsOfResource ev.resourceArn])
  else
    .error ("Invalid resourceType: " ++ ev.resourceType)

/-- `exports.metadataHandler` of `snapshotMetadata.ts:55-194`. -/
def metadataHandler (env : AwsEnv) (rand : ℚ) (ev : ServiceEventDetails) :
    HandlerResult × List AwsCall :=
  if ev.state = "COMPLETED" then
    -- the `assert` calls of lines 64-84 (the `typeof` checks hold by typing)
    if vaultNameOk ev.backupVaultName &&
        arnValidate ev.resourceArn && arnValidate ev.recoveryPointArn then
      -- `checkBucketOwner` (`listBuckets`), lines 50-53 and 86-90
      if env.bucketOwned then
        match resourceSwitch env ev with
        | .error e => (.error e, [.listBuckets])
        | .ok (tags, engine, calls) =>
          (.ok {
            AvailabilityZone := azChoice env.validAzs rand
            SnapshotArn := ev.recoveryPointArn
            SnapshotId := String.mk (snapshotIdChars ev.recoveryPointArn.data)
            ResourceType := ev.resourceType
            BackupVaultName := ev.backupVaultName
            ResourceArn := ev.resourceArn
            S3BucketName := env.bucket
            S3Prefix := String.mk (s3PrefixChars ev.resourceArn.data
              ev.creationDateSeconds ev.creationDateNanos ev.backupJobId.data)
            CreationDate := isoString ev.creationDateSeconds ev.creationDateNanos
            Tags := tags
            Engine := engine },
           .listBuckets :: calls)
      else
        (.error ("Backup bucket " ++ env.bucket ++
          " is not owned by this account."), [.listBuckets])
    else
      (.error "AssertionError", [])
  else
    (.error ("Backup job " ++ ev.backupJobId ++ " terminated in state " ++
      ev.state), [])

/-- Extract the resolved metadata of a handler invocation, if any. -/
def HandlerResult.metadata : HandlerResult → Option SnapshotMetadata
  | .ok m => some m
  | .error _ => none

/-! ## The EBS backup state machine

`EBSBackupMachine` (`src/unnamed/part_002`).  The Step Functions graph is:

* `EBSRestoreTask` (`ec2:createVolume`, with retry) → `EBSReadyTask`;
* `EBSReadyTask` (`ec2:describeVolumes`, stores `$.Ready.State`) →
  `EBS Ready?`; any error is caught into `EBSCleanupTask`;
* `EBS Ready?` choice: per availability zone,
  `State = "available" ∧ AvailabilityZone = az` → that zone's
  `EBSBatchJobTask`; `State = "creating"` → `EBSReadyWait` (1 minute) →
  `EBSReadyTask`; otherwise → `Fail` state `EBSReadyFailed`;
* `EBSBatchJobTask` → `EBSCleanupTask`; errors are caught into
  `EBSCleanupTask` with `resultPath: "$.Error"`;
* `EBSCleanupTask` (`ec2:deleteVolume`) → `EBSCleanupResult`; a
  `VolumeInUse` error is caught into `EBSForceDetach` →
  `EBSWaitDetach` (2 minutes) → `EBSCleanupTask`; other errors are retried
  and then fail the execution;
* `EBSCleanupResult` choice: `$.Error` absent → `Succeed`, present →
  `Fail` state `EBSFail`.

The model is a step function over machine states; each task step consumes a
response describing how the corresponding AWS call turned out.  The context
carries the data the choices consult: the stored `$.Ready.State`, whether
`$.AvailabilityZone` matches one of the deployed batch-job zones, and
whether `$.Error` is present. -/

/-- States of the EBS backup machine.  `failTask` stands for an execution
aborted by an uncaught task failure. -/
inductive EbsState
  | restore
  | readyPoll
  | readyChoice
  | readyWait
  | batchJob
  | cleanup
  | forceDetach
  | waitDetach
  | cleanupResult
  | succeed
  | failReady
  | failCleanup
  | failTask
deriving DecidableEq, Repr

/-- Whether an EBS machine state is terminal. -/
def EbsState.isTerminal : EbsState → Bool
  | .succeed | .failReady | .failCleanup | .failTask => true
  | _ => false

/-- Outcome of the AWS call performed by a task state (after its retry
policy is exhausted).  `polled` carries the volume state string returned by
`describeVolumes`; `volumeInUse` is the delete-volume error caught by
`EBSCleanupTask`'s catch clause. -/
inductive EbsResp
  | ok
  | err
  | polled (state : String)
  | volumeInUse
deriving DecidableEq, Repr

/-- Data of the execution state consulted by the machine's choices. -/
structure EbsCtx where
  readyState : String
  azMatched : Bool
  errorPresent : Bool
deriving DecidableEq, Repr

/-- One transition of the EBS backup machine.  Wait states and choice
states ignore the response.  Terminal states stay put. -/
def ebsStep : EbsState × EbsCtx → EbsResp → EbsState × EbsCtx
  | (.restore, c), r => ((if r = .ok then .readyPoll else .failTask), c)
  | (.readyPoll, c), .polled s => (.readyChoice, { c with readyState := s })
  | (.readyPoll, c), _ => (.cleanup, c)  -- `.addCatch(EBSCleanupTask)`
  | (.readyChoice, c), _ =>
    if c.readyState = "available" && c.azMatched then (.batchJob, c)
    else if c.readyState = "creating" then (.readyWait, c)
    else (.failReady, c)
  | (.readyWait, c), _ => (.readyPoll, c)
  | (.batchJob, c), r =>
    if r = .ok then (.cleanup, c)
    else (.cleanup, { c with errorPresent := true })  -- catch, `$.Error`
  | (.cleanup, c), .ok => (.cleanupResult, c)
  | (.cleanup, c), .volumeInUse => (.forceDetach, c)
  | (.cleanup, c), _ => (.failTask, c)
  | (.forceDetach, c), r => ((if r = .ok then .waitDetach else .failTask), c)
  | (.waitDetach, c), _ => (.cleanup, c)
  | (.cleanupResult, c), _ =>
    ((if c.errorPresent then .failCleanup else .succeed), c)
  | (s, c), _ => (s, c)

/-- Run the machine from a configuration through a list of responses,
returning the visited configurations (including the start). -/
def ebsRun (start : EbsState × EbsCtx) : List EbsResp → List (EbsState × EbsCtx)
  | [] => [start]
  | r :: rs => start :: ebsRun (ebsStep start r) rs

/-- Number of `ec2:deleteVolume` attempts made along a trace: each step
taken out of `EBSCleanupTask` is one attempted delete. -/
def deleteAttempts (trace : List (EbsState × EbsCtx)) : Nat :=
  (trace.dropLast.filter fun sc => sc.1 = EbsState.cleanup).length

/-! ## The RDS/Aurora and DynamoDB export polling loops

`RDSExportMachine` (`src/lib/BaseStateMachine.ts`, second construct) and
`DDBExportMachine` (`src/unnamed/part_001`).  Both machines start the
export, poll its status, and branch on it; the branch either terminates the
machine or waits 30 minutes (`sfn.Wait`) and polls again. -/

/-- What a polling choice does with a polled status. -/
inductive PollDecision
  | succeed
  | fail
  | wait (minutes : Nat)
deriving DecidableEq, Repr

/-- The `RDSExportStatus` choice (`BaseStateMachine.ts:160-172`):
`COMPLETE` → `RDSExportSucceed`; `FAILED` or `CANCELED` →
`RDSExportFailed`; otherwise → `RDSExportWait` (30 minutes) →
`RDSExportStatusTask`. -/
def rdsExportChoice (status : String) : PollDecision :=
  if status = "COMPLETE" then .succeed
  else if status = "FAILED" || status = "CANCELED" then .fail
  else .wait 30

/-- The `DDBExportStatus` choice (`part_001:70-79`): `COMPLETED` →
`DDBExportSucceed`; `IN_PROGRESS` → `DDBExportWait` (30 minutes) →
`DDBExportStatusTask`; otherwise → `DDBExportFailed`. -/
def ddbExportChoice (status : String) : PollDecision :=
  if status = "COMPLETED" then .succeed
  else if status = "IN_PROGRESS" then .wait 30
  else .fail

/-- Drive a polling choice over the statuses successive polls would
return: `some true` if the machine reached its `Succeed` state, `some
false` if it reached its `Fail` state, `none` if the supplied statuses were
exhausted with the machine still waiting. -/
def pollRun (choice : String → PollDecision) : List String → Option Bool
  | [] => none
  | s :: rest =>
    match choice s with
    | .succeed => some true
    | .fail => some false
    | .wait _ => pollRun choice rest

/-! ## The outer AWS Backup Actions machine

`aws-backup-actions-stack.ts:305-385`.  The definition is
`MetadataTask` → `Snapshot type` choice → one of the three
`StepFunctionsStartExecution` tasks (`RUN_JOB` pattern, so the task fails
when the child execution fails) → `acbSuccessState`.  When the
`auto-delete-snapshot` context flag is set, `acbSuccessState` is
`DeleteSnapshotTask` (`backup:deleteRecoveryPoint` with
`BackupVaultName.$ = $.BackupVaultName`, `RecoveryPointArn.$ =
$.SnapshotArn`) followed by `Succeed`; otherwise it is `Succeed` directly.
The `Snapshot type` choice has no `otherwise` branch, so an unmatched
resource type fails the execution. -/

/-- Calls issued by the outer machine. -/
inductive OuterCall
  | invokeMetadataLambda
  | startEbsExecution
  | startRdsExecution
  | startDdbExecution
  | deleteRecoveryPoint (backupVaultName recoveryPointArn : String)
deriving DecidableEq, Repr

/-- Environment of one outer-machine execution: what the metadata Lambda
returns (`none` = it threw even after retries), whether the dispatched
child execution succeeds, and whether the delete call succeeds. -/
structure OuterEnv where
  metadataResult : Option SnapshotMetadata
  exportOk : Bool
  deleteOk : Bool
deriving DecidableEq, Repr

/-- Whether the delete-recovery-point call is one of the given calls. -/
def isDeleteCall : OuterCall → Bool
  | .deleteRecoveryPoint _ _ => true
  | _ => false

/-- The start-execution task the `Snapshot type` choice dispatches to, if
any branch matches. -/
def routeOf (resourceType : String) : Option OuterCall :=
  if resourceType = "EBS" then some .startEbsExecution
  else if resourceType = "RDS" || resourceType = "Aurora" then
    some .startRdsExecution
  else if resourceType = "DynamoDB" then some .startDdbExecution
  else none

/-- Execute the outer machine: returns the calls it issues, in order, and
whether the execution reaches the `Success` state. -/
def acbExec (autoDeleteSnapshot : Bool) (env : OuterEnv) :
    List OuterCall × Bool :=
  match env.metadataResult with
  | none => ([.invokeMetadataLambda], false)
  | some md =>
    match routeOf md.ResourceType with
    | none => ([.invokeMetadataLambda], false)  -- States.NoChoiceMatched
    | some task =>
      if env.exportOk then
        if autoDeleteSnapshot then
          ([.invokeMetadataLambda, task,
            .deleteRecoveryPoint md.BackupVaultName md.SnapshotArn],
           env.deleteOk)
        else ([.invokeMetadataLambda, task], true)
      else ([.invokeMetadataLambda, task], false)

/-- "The dispatched per-resource-type export execution succeeded": the
metadata step produced a routable resource type and the child export
execution succeeded. -/
def exportDispatchSucceeded (env : OuterEnv) : Bool :=
  (match env.metadataResult with
   | none => false
   | some md => (routeOf md.ResourceType).isSome) && env.exportOk

/-! ## Concrete sample data

A happy-path environment and events used by the concrete scenarios below. -/

def sampleEnv : AwsEnv := {
  validAzs := "us-east-1a,us-east-1b,us-east-1c"
  bucket := "backup-bucket"
  bucketOwned := true
  ec2Tags := .ok [⟨"Name", "myvol"⟩]
  rdsEngine := .ok "aurora-mysql"
  rdsTags := .ok [⟨"team", "db"⟩]
  ddbTags := .ok [] }

/-- The same environment with the RDS metadata/tag fetches failing. -/
def sampleEnvRdsDown : AwsEnv :=
  { sampleEnv with rdsEngine := .error "boom", rdsTags := .error "boom" }

/-- The spec's end-to-end EBS scenario input. -/
def evEbs : ServiceEventDetails := {
  backupJobId := "job-42"
  backupVaultName := "Default"
  resourceType := "EBS"
  resourceArn := "arn:aws:ec2:us-east-1:123456789012:volume/vol-0123"
  recoveryPointArn := "arn:aws:ec2:us-east-1:123456789012:snapshot/snap-0123"
  state := "COMPLETED"
  creationDateSeconds := 1700000000
  creationDateNanos := 0 }

/-- Same job, one second later (still 2023-11-14 UTC). -/
def evEbsLater : ServiceEventDetails :=
  { evEbs with creationDateSeconds := 1700000001 }

/-- Same job with the ARN's final `/` replaced by `:` (still a valid ARN). -/
def evColon : ServiceEventDetails :=
  { evEbs with
    resourceArn := "arn:aws:ec2:us-east-1:123456789012:volume:vol-0123" }

/-- An Aurora cluster-snapshot backup job. -/
def evAurora : ServiceEventDetails :=
  { evEbs with
    resourceType := "Aurora"
    resourceArn := "arn:aws:rds:us-east-1:123456789012:cluster-snapshot:mydb" }

/-- An RDS instance-snapshot backup job. -/
def evRds : ServiceEventDetails :=
  { evEbs with
    resourceType := "RDS"
    resourceArn := "arn:aws:rds:us-east-1:123456789012:snapshot:mydb" }

/-- A backup job that did not complete. -/
def evFailedState : ServiceEventDetails := { evEbs with state := "FAILED" }

/-- The metadata record the handler resolves with on `evEbs` under
`sampleEnv` and random sample `0`. -/
def sampleMetadataEbs : SnapshotMetadata := {
  AvailabilityZone := azChoice sampleEnv.validAzs 0
  SnapshotArn := "arn:aws:ec2:us-east-1:123456789012:snapshot/snap-0123"
  SnapshotId := String.mk (snapshotIdChars
    "arn:aws:ec2:us-east-1:123456789012:snapshot/snap-0123".data)
  ResourceType := "EBS"
  BackupVaultName := "Default"
  ResourceArn := "arn:aws:ec2:us-east-1:123456789012:volume/vol-0123"
  S3BucketName := "backup-bucket"
  S3Prefix := String.mk (s3PrefixChars
    "arn:aws:ec2:us-east-1:123456789012:volume/vol-0123".data 1700000000 0
    "job-42".data)
  CreationDate := isoString 1700000000 0
  Tags := [⟨"Name", "myvol"⟩]
  Engine := "" }

/-- Initial configuration of the EBS machine: fresh execution, chosen
availability zone deployed. -/
def ebsStart : EbsState × EbsCtx := (.restore, ⟨"", true, false⟩)

/-- Task outcomes of a run in which the restored volume enters an error
state: `createVolume` succeeds, `describeVolumes` returns
`State = "error"`. -/
def leakResponses : List EbsResp := [.ok, .polled "error", .ok]

/-! ## Lemmas about the string primitives -/

theorem consHead_ne_nil (x : Char) (L : List (List Char)) :
    consHead x L ≠ [] := by
  cases L <;> simp [consHead]

theorem splitOnChar_ne_nil (c : Char) (l : List Char) :
    splitOnChar c l ≠ [] := by
  cases l with
  | nil => simp [splitOnChar]
  | cons x xs =>
    rw [splitOnChar]
    split
    · simp
    · exact consHead_ne_nil x _

theorem not_mem_of_mem_splitOnChar (c : Char) :
    ∀ l p, p ∈ splitOnChar c l → c ∉ p := by
  intro l
  induction l with
  | nil =>
    intro p hp
    simp [splitOnChar] at hp
    simp [hp]
  | cons x xs ih =>
    intro p hp
    rw [splitOnChar] at hp
    by_cases hx : x = c
    · rw [if_pos hx] at hp
      rcases List.mem_cons.mp hp with h1 | h1
      · simp [h1]
      · exact ih p h1
    · rw [if_neg hx] at hp
      cases h : splitOnChar c xs with
      | nil => exact absurd h (splitOnChar_ne_nil c xs)
      | cons hd tl =>
        rw [h] at hp
        simp only [consHead] at hp
        rcases List.mem_cons.mp hp with h1 | h1
        · subst h1
          intro hc
          rcases List.mem_cons.mp hc with h2 | h2
          · exact hx h2.symm
          · exact ih hd (h ▸ List.mem_cons_self hd tl) h2
        · exact ih p (h ▸ List.mem_cons.mpr (Or.inr h1))

theorem joinChar_cons_cons (c : Char) (x : Char) (hd : List Char)
    (tl : List (List Char)) :
    joinChar c ((x :: hd) :: tl) = x :: joinChar c (hd :: tl) := by
  cases tl <;> simp [joinChar]

theorem joinChar_splitOnChar (c : Char) (l : List Char) :
    joinChar c (splitOnChar c l) = l := by
  induction l with
  | nil => rfl
  | cons x xs ih =>
    rw [splitOnChar]
    cases h : splitOnChar c xs with
    | nil => exact absurd h (splitOnChar_ne_nil c xs)
    | cons hd tl =>
      rw [h] at ih
      by_cases hx : x = c
      · rw [if_pos hx]
        subst hx
        simpa [joinChar] using ih
      · rw [if_neg hx]
        simp only [consHead]
        rw [joinChar_cons_cons, ih]

theorem splitOnChar_injective (c : Char) {l₁ l₂ : List Char}
    (h : splitOnChar c l₁ = splitOnChar c l₂) : l₁ = l₂ := by
  have := congrArg (joinChar c) h
  rwa [joinChar_splitOnChar, joinChar_splitOnChar] at this

theorem splitOnChar_no_sep (c : Char) :
    ∀ p : List Char, c ∉ p → splitOnChar c p = [p] := by
  intro p
  induction p with
  | nil => intro; rfl
  | cons x xs ih =>
    intro hc
    have hx : ¬ x = c := fun h => hc (h ▸ List.mem_cons_self x xs)
    rw [splitOnChar, if_neg hx, ih (fun h => hc (List.mem_cons.mpr (Or.inr h)))]
    rfl

theorem splitOnChar_append_of_free (c : Char) :
    ∀ (p r : List Char) (hd : List Char) (tl : List (List Char)), c ∉ p →
      splitOnChar c r = hd :: tl →
      splitOnChar c (p ++ r) = (p ++ hd) :: tl := by
  intro p
  induction p with
  | nil => intro r hd tl _ hr; simpa using hr
  | cons x p' ih =>
    intro r hd tl hc hr
    have hx : ¬ x = c := fun h => hc (h ▸ List.mem_cons_self x p')
    have hrec := ih r hd tl (fun h => hc (List.mem_cons.mpr (Or.inr h))) hr
    rw [List.cons_append, splitOnChar, if_neg hx, hrec]
    rfl

theorem splitOnChar_joinChar (c : Char) :
    ∀ L : List (List Char), L ≠ [] → (∀ p ∈ L, c ∉ p) →
      splitOnChar c (joinChar c L) = L := by
  intro L
  induction L with
  | nil => intro h; exact absurd rfl h
  | cons p L' ih =>
    intro _ hfree
    cases L' with
    | nil =>
      simpa [joinChar] using
        splitOnChar_no_sep c p (hfree p (List.mem_cons_self p []))
    | cons q t =>
      have hrest : splitOnChar c (joinChar c (q :: t)) = q :: t :=
        ih (by simp) (fun r hr => hfree r (List.mem_cons.mpr (Or.inr hr)))
      have hsep : splitOnChar c (c :: joinChar c (q :: t)) =
          [] :: q :: t := by
        rw [splitOnChar, if_pos rfl, hrest]
      have : joinChar c (p :: q :: t) = p ++ c :: joinChar c (q :: t) := rfl
      rw [this, splitOnChar_append_of_free c p _ _ _
        (hfree p (List.mem_cons_self p _)) hsep, List.append_nil]

theorem joinChar_injective (c : Char) {L₁ L₂ : List (List Char)}
    (h₁ : L₁ ≠ []) (h₂ : L₂ ≠ []) (hf₁ : ∀ p ∈ L₁, c ∉ p)
    (hf₂ : ∀ p ∈ L₂, c ∉ p) (h : joinChar c L₁ = joinChar c L₂) :
    L₁ = L₂ := by
  have := congrArg (splitOnChar c) h
  rwa [splitOnChar_joinChar c L₁ h₁ hf₁, splitOnChar_joinChar c L₂ h₂ hf₂]
    at this

theorem joinChar_eq_cons (c : Char) (p q : List Char)
    (t : List (List Char)) :
    joinChar c (p :: q :: t) = p ++ c :: joinChar c (q :: t) := rfl

theorem joinChar_append (c : Char) :
    ∀ L₁ L₂ : List (List Char), L₁ ≠ [] → L₂ ≠ [] →
      joinChar c (L₁ ++ L₂) = joinChar c L₁ ++ c :: joinChar c L₂ := by
  intro L₁
  induction L₁ with
  | nil => intro L₂ h; exact absurd rfl h
  | cons p L' ih =>
    intro L₂ _ hL₂
    cases L' with
    | nil =>
      cases L₂ with
      | nil => exact absurd rfl hL₂
      | cons q t => simp [joinChar]
    | cons p' t' =>
      simp only [List.cons_append]
      rw [joinChar_eq_cons]
      have ihh := ih L₂ (by simp) hL₂
      simp only [List.cons_append] at ihh
      rw [ihh, joinChar_eq_cons]
      simp [List.append_assoc]

/-! ## Lemmas about decimal rendering and padding -/

theorem digitVal_digitChar {k : Nat} (h : k < 10) :
    digitVal (Nat.digitChar k) = k := by
  interval_cases k <;> rfl

theorem digitChar_ne_zero {k : Nat} (h1 : 1 ≤ k) (h2 : k < 10) :
    Nat.digitChar k ≠ '0' := by
  interval_cases k <;> decide

theorem digitChar_range {k : Nat} (h : k < 10) :
    48 ≤ (Nat.digitChar k).toNat ∧ (Nat.digitChar k).toNat ≤ 57 := by
  interval_cases k <;> decide

theorem natToDecRevAux_ne_nil : ∀ {f n : Nat}, n < f →
    natToDecRevAux f n ≠ [] := by
  intro f
  induction f with
  | zero => intro n h; omega
  | succ f _ =>
    intro n _
    rw [natToDecRevAux]
    split <;> simp

theorem decRevToNat_natToDecRevAux : ∀ {f n : Nat}, n < f →
    decRevToNat (natToDecRevAux f n) = n := by
  intro f
  induction f with
  | zero => intro n h; omega
  | succ f ih =>
    intro n hn
    rw [natToDecRevAux]
    split
    · next h10 => simp [decRevToNat, digitVal_digitChar h10]
    · next h10 =>
      have hdiv : n / 10 < f := by
        have h1 : n / 10 < n := Nat.div_lt_self (by omega) (by omega)
        omega
      rw [decRevToNat, ih hdiv, digitVal_digitChar (Nat.mod_lt n (by omega))]
      omega

theorem mem_natToDecRevAux_range : ∀ {f n : Nat} {c : Char}, n < f →
    c ∈ natToDecRevAux f n → 48 ≤ c.toNat ∧ c.toNat ≤ 57 := by
  intro f
  induction f with
  | zero => intro n c h; omega
  | succ f ih =>
    intro n c hn hc
    rw [natToDecRevAux] at hc
    split at hc
    · next h10 =>
      rw [List.mem_singleton] at hc
      exact hc ▸ digitChar_range h10
    · next h10 =>
      rcases List.mem_cons.mp hc with h1 | h1
      · exact h1 ▸ digitChar_range (Nat.mod_lt n (by omega))
      · have hdiv : n / 10 < f := by
          have h1 : n / 10 < n := Nat.div_lt_self (by omega) (by omega)
          omega
        exact ih hdiv h1

theorem getLast?_natToDecRevAux_ne_zero : ∀ {f n : Nat}, n < f → 1 ≤ n →
    ∀ {c : Char}, (natToDecRevAux f n).getLast? = some c → c ≠ '0' := by
  intro f
  induction f with
  | zero => intro n h; omega
  | succ f ih =>
    intro n hn h1 c hc
    rw [natToDecRevAux] at hc
    split at hc
    · next h10 =>
      simp [List.getLast?] at hc
      exact hc ▸ digitChar_ne_zero h1 h10
    · next h10 =>
      have hdiv : n / 10 < f := by
        have := Nat.div_lt_self (show 0 < n by omega) (show 1 < 10 by omega)
        omega
      have hge : 1 ≤ n / 10 := (Nat.one_le_div_iff (by omega)).mpr (by omega)
      cases hrec : natToDecRevAux f (n / 10) with
      | nil => exact absurd hrec (natToDecRevAux_ne_nil hdiv)
      | cons d ds =>
        rw [hrec, List.getLast?_cons_cons] at hc
        exact ih hdiv hge (hrec ▸ hc)

theorem natToDecRev_ne_nil (n : Nat) : natToDecRev n ≠ [] :=
  natToDecRevAux_ne_nil (Nat.lt_succ_self n)

theorem decRevToNat_natToDecRev (n : Nat) : decRevToNat (natToDecRev n) = n :=
  decRevToNat_natToDecRevAux (Nat.lt_succ_self n)

theorem natToDec_ne_nil (n : Nat) : natToDec n ≠ [] := by
  intro h
  rw [natToDec, List.reverse_eq_nil_iff] at h
  exact natToDecRev_ne_nil n h

theorem not_slash_mem_natToDec (n : Nat) : '/' ∉ natToDec n := by
  intro h
  rw [natToDec, List.mem_reverse] at h
  have := mem_natToDecRevAux_range (Nat.lt_succ_self n) h
  revert this
  decide

theorem head?_natToDec_ne_zero {n : Nat} (h1 : 1 ≤ n) :
    ∀ {c : Char}, (natToDec n).head? = some c → c ≠ '0' := by
  intro c hc
  rw [natToDec, List.head?_reverse] at hc
  exact getLast?_natToDecRevAux_ne_zero (Nat.lt_succ_self n) h1 hc

theorem dropWhile_replicate_append (p : Char → Bool) (a : Char)
    (hp : p a = true) (k : Nat) (l : List Char) :
    List.dropWhile p (List.replicate k a ++ l) = List.dropWhile p l := by
  induction k with
  | zero => rfl
  | succ k ih => rw [List.replicate_succ, List.cons_append,
      List.dropWhile_cons_of_pos hp, ih]

theorem unpadDec_padStart (w n : Nat) :
    unpadDec (padStart w '0' (natToDec n)) = n := by
  rw [unpadDec, padStart,
    dropWhile_replicate_append _ _ (by decide)]
  rcases Nat.eq_zero_or_pos n with h0 | h1
  · subst h0
    decide
  · cases hd : natToDec n with
    | nil => exact absurd hd (natToDec_ne_nil n)
    | cons c cs =>
      have hc : c ≠ '0' := head?_natToDec_ne_zero h1 (by rw [hd]; rfl)
      rw [List.dropWhile_cons_of_neg (by simpa using hc), ← hd]
      have : (natToDec n).reverse = natToDecRev n := by
        rw [natToDec, List.reverse_reverse]
      rw [this, decRevToNat_natToDecRev]

theorem padStart_natToDec_injective (w : Nat) {a b : Nat}
    (h : padStart w '0' (natToDec a) = padStart w '0' (natToDec b)) :
    a = b := by
  have := congrArg unpadDec h
  rwa [unpadDec_padStart, unpadDec_padStart] at this

theorem not_slash_mem_padStart_natToDec (w n : Nat) :
    '/' ∉ padStart w '0' (natToDec n) := by
  intro h
  rw [padStart, List.mem_append] at h
  rcases h with h | h
  · have := List.eq_of_mem_replicate h
    exact absurd this (by decide)
  · exact not_slash_mem_natToDec n h

/-! ## Claim theorems -/

/-- C5: for every inbound event whose state is not `COMPLETED`, the
metadata handler fails with an error whose message echoes the job id and
the actual state, and issues no SDK calls at all. -/
theorem metadataHandler_rejects_not_completed (env : AwsEnv) (rand : ℚ)
    (ev : ServiceEventDetails) (h : ev.state ≠ "COMPLETED") :
    metadataHandler env rand ev =
      (.error ("Backup job " ++ ev.backupJobId ++ " terminated in state " ++
        ev.state), []) := by
  rw [metadataHandler, if_neg h]

/-- C5 witness: the rejection at a concrete `FAILED` job. -/
theorem metadataHandler_rejects_not_completed_witness :
    evFailedState.state ≠ "COMPLETED" ∧
    metadataHandler sampleEnv 0 evFailedState =
      (.error "Backup job job-42 terminated in state FAILED", []) :=
  ⟨by decide, metadataHandler_rejects_not_completed sampleEnv 0 evFailedState
    (by decide)⟩

/-- C7: in the RDS/Aurora export polling loop, a polled `COMPLETE`
terminates with success, `FAILED` or `CANCELED` terminates with failure,
and every other status leads to a 30-minute wait followed by another poll
— never to failure; in particular a run that only ever observes
non-terminal statuses keeps polling and never fails. -/
theorem rdsPolling_unknown_status_waits :
    rdsExportChoice "COMPLETE" = .succeed ∧
    rdsExportChoice "FAILED" = .fail ∧
    rdsExportChoice "CANCELED" = .fail ∧
    (∀ st : String, st ≠ "COMPLETE" → st ≠ "FAILED" → st ≠ "CANCELED" →
      rdsExportChoice st = .wait 30) ∧
    (∀ sts : List String,
      (∀ s ∈ sts, s ≠ "COMPLETE" ∧ s ≠ "FAILED" ∧ s ≠ "CANCELED") →
      pollRun rdsExportChoice sts = none) := by
  refine ⟨rfl, rfl, rfl, ?_, ?_⟩
  · intro st h1 h2 h3
    rw [rdsExportChoice, if_neg h1, if_neg (by simp [h2, h3])]
  · intro sts hsts
    induction sts with
    | nil => rfl
    | cons s rest ih =>
      obtain ⟨h1, h2, h3⟩ := hsts s (List.mem_cons_self s rest)
      rw [pollRun, rdsExportChoice, if_neg h1, if_neg (by simp [h2, h3])]
      exact ih fun t ht => hsts t (List.mem_cons.mpr (Or.inr ht))

/-- C7 witness: a concrete unrecognized status re-polls, and a run of
non-terminal statuses stays pending. -/
theorem rdsPolling_unknown_status_waits_witness :
    rdsExportChoice "IN_PROGRESS" = .wait 30 ∧
    pollRun rdsExportChoice ["STARTING", "IN_PROGRESS"] = none :=
  ⟨rdsPolling_unknown_status_waits.2.2.2.1 "IN_PROGRESS" (by decide)
      (by decide) (by decide),
   rdsPolling_unknown_status_waits.2.2.2.2 ["STARTING", "IN_PROGRESS"]
      (by decide)⟩

/-- C6 counterexample: the DynamoDB polling loop terminates (with failure)
on the unrecognized status `"STARTING"`, which is none of
`COMPLETED`/`COMPLETE`/`FAILED`/`CANCELED` — so it is false that both
polling loops re-poll on every status outside that set. -/
theorem ddbPolling_unknown_status_fails :
    ddbExportChoice "STARTING" = .fail ∧
    pollRun ddbExportChoice ["STARTING"] = some false ∧
    "STARTING" ≠ "COMPLETED" ∧ "STARTING" ≠ "COMPLETE" ∧
    "STARTING" ≠ "FAILED" ∧ "STARTING" ≠ "CANCELED" := by
  refine ⟨rfl, rfl, by decide, by decide, by decide, by decide⟩

/-- C6 (amended): the RDS/Aurora loop terminates exactly on
`{COMPLETE, FAILED, CANCELED}` and re-polls on everything else, while the
DynamoDB loop re-polls exactly on `IN_PROGRESS`, succeeds exactly on
`COMPLETED`, and terminates with failure on every other status. -/
theorem pollingChoices_characterization (st : String) :
    (rdsExportChoice st = .succeed ↔ st = "COMPLETE") ∧
    (rdsExportChoice st = .fail ↔ (st = "FAILED" ∨ st = "CANCELED")) ∧
    (rdsExportChoice st = .wait 30 ↔
      (st ≠ "COMPLETE" ∧ st ≠ "FAILED" ∧ st ≠ "CANCELED")) ∧
    (ddbExportChoice st = .succeed ↔ st = "COMPLETED") ∧
    (ddbExportChoice st = .wait 30 ↔ st = "IN_PROGRESS") ∧
    (ddbExportChoice st = .fail ↔
      (st ≠ "COMPLETED" ∧ st ≠ "IN_PROGRESS")) := by
  rw [rdsExportChoice, ddbExportChoice]
  split_ifs <;> simp_all
  tauto

/-- C1: evaluating the EBS backup machine on a run in which the restored
volume's polled state is `"error"` (neither `available` nor `creating`):
the machine reaches the terminal `Fail` state `EBSReadyFailed` without a
single `ec2:deleteVolume` attempt, leaving the restored volume behind. -/
theorem ebsReadyFailed_leaks_volume :
    (ebsRun ebsStart leakResponses).getLast? =
      some (EbsState.failReady, ⟨"error", true, false⟩) ∧
    ((ebsRun ebsStart leakResponses).getLast?.map
      fun sc => sc.1.isTerminal) = some true ∧
    deleteAttempts (ebsRun ebsStart leakResponses) = 0 ∧
    "error" ≠ "available" ∧ "error" ≠ "creating" := by
  refine ⟨by decide, by decide, by decide, by decide, by decide⟩

/-- C4: for a validated Aurora (resp. RDS) backup job, the handler issues
the snapshot-descriptor and tag-list fetches but — because the
`Promise.all(...).then` callback is never awaited — resolves with the
initial defaults `Engine = ""` and `Tags = []` even though the fetched
descriptor carries engine `"aurora-mysql"` and a non-empty tag list; and
when both fetches fail the handler still resolves successfully instead of
failing the job. -/
theorem aurora_rds_fetches_not_awaited :
    ((metadataHandler sampleEnv 0 evAurora).1.metadata.map
       SnapshotMetadata.Engine) = some "" ∧
    ((metadataHandler sampleEnv 0 evAurora).1.metadata.map
       SnapshotMetadata.Tags) = some [] ∧
    sampleEnv.rdsEngine = .ok "aurora-mysql" ∧
    sampleEnv.rdsTags = .ok [⟨"team", "db"⟩] ∧
    (metadataHandler sampleEnv 0 evAurora).2 =
      [.listBuckets, .rdsDescribeDBClusterSnapshots evAurora.resourceArn,
       .rdsListTagsForResource evAurora.resourceArn] ∧
    ((metadataHandler sampleEnvRdsDown 0 evAurora).1.metadata).isSome =
      true ∧
    ((metadataHandler sampleEnv 0 evRds).1.metadata.map
       SnapshotMetadata.Engine) = some "" ∧
    ((metadataHandler sampleEnvRdsDown 0 evRds).1.metadata).isSome =
      true := by
  refine ⟨by decide, by decide, by decide, by decide, by decide, by decide,
    by decide, by decide⟩

theorem routeOf_not_delete {rt : String} {t : OuterCall}
    (h : routeOf rt = some t) : isDeleteCall t = false := by
  rw [routeOf] at h
  split_ifs at h
  all_goals (try (injection h with h; subst h; rfl))

/-- C2: the outer machine issues the `backup:deleteRecoveryPoint` call if
and only if the dispatched per-resource-type export execution succeeded
and the auto-delete flag is enabled; and any delete call it issues is on
the vault name and recovery-point ARN recorded in the job's metadata. -/
theorem acb_deleteRecoveryPoint_iff (flag : Bool) (env : OuterEnv) :
    ((acbExec flag env).1.any isDeleteCall) =
      (exportDispatchSucceeded env && flag) ∧
    (∀ v a, OuterCall.deleteRecoveryPoint v a ∈ (acbExec flag env).1 →
      ∃ md, env.metadataResult = some md ∧ v = md.BackupVaultName ∧
        a = md.SnapshotArn ∧ flag = true ∧ env.exportOk = true) := by
  rw [acbExec, exportDispatchSucceeded]
  cases hmd : env.metadataResult with
  | none => simp [isDeleteCall]
  | some md =>
    dsimp only
    cases hr : routeOf md.ResourceType with
    | none => simp [isDeleteCall]
    | some task =>
      dsimp only
      have hnd := routeOf_not_delete hr
      have hdc1 : isDeleteCall .invokeMetadataLambda = false := rfl
      have hdc2 : ∀ v a, isDeleteCall (.deleteRecoveryPoint v a) = true :=
        fun _ _ => rfl
      refine ⟨?_, ?_⟩
      · by_cases he : env.exportOk = true <;> by_cases hf : flag = true <;>
          simp [he, hf, hnd, hdc1, hdc2]
      · intro v a hmem
        by_cases he : env.exportOk = true
        · by_cases hf : flag = true
          · rw [if_pos he, if_pos hf] at hmem
            simp only [List.mem_cons, List.not_mem_nil, or_false] at hmem
            rcases hmem with h | h | h
            · exact absurd h (by simp)
            · exact absurd hnd (by rw [← h]; simp [isDeleteCall])
            · injection h with hv ha
              exact ⟨md, rfl, hv, ha, hf, he⟩
          · rw [if_pos he, if_neg hf] at hmem
            simp only [List.mem_cons, List.not_mem_nil, or_false] at hmem
            rcases hmem with h | h
            · exact absurd h (by simp)
            · exact absurd hnd (by rw [← h]; simp [isDeleteCall])
        · rw [if_neg he] at hmem
          simp only [List.mem_cons, List.not_mem_nil, or_false] at hmem
          rcases hmem with h | h
          · exact absurd h (by simp)
          · exact absurd hnd (by rw [← h]; simp [isDeleteCall])

/-- C2 witness: a successful EBS export with the flag enabled issues the
delete; with the flag disabled it does not. -/
theorem acb_deleteRecoveryPoint_iff_witness :
    ((acbExec true ⟨some sampleMetadataEbs, true, true⟩).1.any isDeleteCall)
      = true ∧
    ((acbExec false ⟨some sampleMetadataEbs, true, true⟩).1.any
      isDeleteCall) = false ∧
    ((acbExec true ⟨some sampleMetadataEbs, false, true⟩).1.any
      isDeleteCall) = false := by
  refine ⟨?_, ?_, ?_⟩
  · rw [(acb_deleteRecoveryPoint_iff true
      ⟨some sampleMetadataEbs, true, true⟩).1]
    decide
  · rw [(acb_deleteRecoveryPoint_iff false
      ⟨some sampleMetadataEbs, true, true⟩).1]
    decide
  · rw [(acb_deleteRecoveryPoint_iff true
      ⟨some sampleMetadataEbs, false, true⟩).1]
    decide

/-- C10: the handler's `SnapshotId` is the part of `recoveryPointArn`
after its last `/`: it contains no `/`, the ARN ends with it (what comes
before is empty or ends in `/`), and for an ARN without any `/` it is the
whole ARN. -/
theorem snapshotIdChars_spec (arn : List Char) :
    '/' ∉ snapshotIdChars arn ∧
    (∃ pre, arn = pre ++ snapshotIdChars arn ∧
      (pre = [] ∨ pre.getLast? = some '/')) ∧
    ('/' ∉ arn → snapshotIdChars arn = arn) := by
  have hS : splitOnChar '/' arn ≠ [] := splitOnChar_ne_nil _ _
  obtain ⟨ini, x, hS'⟩ : ∃ ini x, splitOnChar '/' arn = ini ++ [x] :=
    ⟨(splitOnChar '/' arn).dropLast, (splitOnChar '/' arn).getLast hS,
      (List.dropLast_append_getLast hS).symm⟩
  have hlast : snapshotIdChars arn = x := by
    rw [snapshotIdChars, hS', List.getLastD_concat]
  have hmem : x ∈ splitOnChar '/' arn := by
    rw [hS']
    exact List.mem_append.mpr (Or.inr (List.mem_singleton.mpr rfl))
  have hjoin : joinChar '/' (splitOnChar '/' arn) = arn :=
    joinChar_splitOnChar '/' arn
  refine ⟨hlast ▸ not_mem_of_mem_splitOnChar '/' arn _ hmem, ?_, ?_⟩
  · rw [hS'] at hjoin
    cases ini with
    | nil =>
      refine ⟨[], ?_, Or.inl rfl⟩
      rw [List.nil_append, hlast, ← hjoin]
      rfl
    | cons q qs =>
      refine ⟨joinChar '/' (q :: qs) ++ ['/'], ?_,
        Or.inr (List.getLast?_concat _)⟩
      rw [hlast, ← hjoin, joinChar_append '/' _ _ (by simp) (by simp)]
      have hx : joinChar '/' [x] = x := rfl
      rw [hx, List.append_cons]
  · intro h
    rw [snapshotIdChars, splitOnChar_no_sep '/' arn h]
    rfl

/-- C10 witness: the trailing-segment facts at a concrete recovery-point
ARN and at an ARN containing no slash. -/
theorem snapshotIdChars_spec_witness :
    snapshotIdChars
      "arn:aws:ec2:us-east-1:123456789012:snapshot/snap-0123".data =
      "snap-0123".data ∧
    snapshotIdChars "arn:aws:rds:us-east-1:123456789012:snapshot:mydb".data
      = "arn:aws:rds:us-east-1:123456789012:snapshot:mydb".data :=
  ⟨by decide,
   (snapshotIdChars_spec
     "arn:aws:rds:us-east-1:123456789012:snapshot:mydb".data).2.2
     (by decide)⟩

theorem azChoice_mem (azs : String) (r : ℚ) (h0 : 0 ≤ r) (h1 : r < 1) :
    azChoice azs r ∈ jsSplit ',' azs := by
  rw [azChoice]
  have hlen : 0 < (jsSplit ',' azs).length := by
    rw [jsSplit]
    cases hsp : splitOnChar ',' azs.data with
    | nil => exact absurd hsp (splitOnChar_ne_nil _ _)
    | cons a t => simp
  have hflt : ⌊r * ((jsSplit ',' azs).length : ℚ)⌋ <
      ((jsSplit ',' azs).length : ℤ) := by
    rw [Int.floor_lt]
    push_cast
    calc r * ((jsSplit ',' azs).length : ℚ)
        < 1 * ((jsSplit ',' azs).length : ℚ) :=
          mul_lt_mul_of_pos_right h1 (by exact_mod_cast hlen)
      _ = ((jsSplit ',' azs).length : ℚ) := one_mul _
  have hnn : 0 ≤ ⌊r * ((jsSplit ',' azs).length : ℚ)⌋ :=
    Int.floor_nonneg.mpr (mul_nonneg h0 (by positivity))
  have hidx : (⌊r * ((jsSplit ',' azs).length : ℚ)⌋).toNat <
      (jsSplit ',' azs).length := by omega
  rw [List.getD_eq_getElem _ _ hidx]
  exact List.getElem_mem hidx

theorem azChoice_surjective (azs : String) (i : Nat)
    (hi : i < (jsSplit ',' azs).length) :
    0 ≤ ((i : ℚ) / (jsSplit ',' azs).length) ∧
    ((i : ℚ) / (jsSplit ',' azs).length) < 1 ∧
    azChoice azs ((i : ℚ) / (jsSplit ',' azs).length) =
      (jsSplit ',' azs).get ⟨i, hi⟩ := by
  have hlen : 0 < (jsSplit ',' azs).length := Nat.lt_of_le_of_lt
    (Nat.zero_le i) hi
  have hlenq : (0 : ℚ) < ((jsSplit ',' azs).length : ℚ) := by
    exact_mod_cast hlen
  refine ⟨div_nonneg (by positivity) (le_of_lt hlenq), ?_, ?_⟩
  · rw [div_lt_one hlenq]
    exact_mod_cast hi
  · rw [azChoice]
    have hcancel : (i : ℚ) / ((jsSplit ',' azs).length : ℚ) *
        ((jsSplit ',' azs).length : ℚ) = (i : ℚ) :=
      div_mul_cancel₀ _ (ne_of_gt hlenq)
    rw [hcancel, Int.floor_natCast]
    have : ((i : ℤ)).toNat = i := Int.toNat_natCast i
    rw [this, List.getD_eq_getElem _ _ hi]
    rfl

theorem metadataHandler_az (env : AwsEnv) (rand : ℚ)
    (ev : ServiceEventDetails) (m : SnapshotMetadata)
    (h : (metadataHandler env rand ev).1 = .ok m) :
    m.AvailabilityZone = azChoice env.validAzs rand := by
  rw [metadataHandler] at h
  by_cases h1 : ev.state = "COMPLETED"
  · rw [if_pos h1] at h
    by_cases h2 : (vaultNameOk ev.backupVaultName &&
        arnValidate ev.resourceArn && arnValidate ev.recoveryPointArn)
        = true
    · rw [if_pos h2] at h
      by_cases h3 : env.bucketOwned = true
      · rw [if_pos h3] at h
        cases hsw : resourceSwitch env ev with
        | error e => rw [hsw] at h; simp at h
        | ok val =>
          obtain ⟨tags, engine, calls⟩ := val
          rw [hsw] at h
          simp only [HandlerResult.ok.injEq] at h
          rw [← h]
      · rw [if_neg h3] at h; simp at h
    · rw [if_neg h2] at h; simp at h
  · rw [if_neg h1] at h; simp at h

/-- C9: whenever the handler resolves, the chosen `AvailabilityZone` is a
member of the configured `VALIDAZS` list, and every member of that list is
selected by some value of the random sample in `[0, 1)`. -/
theorem availabilityZone_valid (env : AwsEnv) (rand : ℚ)
    (ev : ServiceEventDetails) (m : SnapshotMetadata)
    (h : (metadataHandler env rand ev).1 = .ok m)
    (h0 : 0 ≤ rand) (h1 : rand < 1) :
    m.AvailabilityZone ∈ jsSplit ',' env.validAzs ∧
    ∀ i (hi : i < (jsSplit ',' env.validAzs).length), ∃ r' : ℚ,
      0 ≤ r' ∧ r' < 1 ∧
      azChoice env.validAzs r' = (jsSplit ',' env.validAzs).get ⟨i, hi⟩ := by
  refine ⟨?_, ?_⟩
  · rw [metadataHandler_az env rand ev m h]
    exact azChoice_mem env.validAzs rand h0 h1
  · intro i hi
    obtain ⟨ha, hb, hc⟩ := azChoice_surjective env.validAzs i hi
    exact ⟨_, ha, hb, hc⟩

/-- C9 witness: on the concrete EBS scenario with random sample `0`, the
chosen availability zone is in the configured list. -/
theorem availabilityZone_valid_witness :
    (metadataHandler sampleEnv 0 evEbs).1 = .ok sampleMetadataEbs ∧
    sampleMetadataEbs.AvailabilityZone ∈ jsSplit ',' sampleEnv.validAzs :=
  ⟨rfl,
   (availabilityZone_valid sampleEnv 0 evEbs sampleMetadataEbs rfl
     le_rfl (by norm_num)).1⟩

/-- C8: on the spec's end-to-end scenario
(`resourceArn = .../volume/vol-0123`,
`recoveryPointArn = .../snapshot/snap-0123`,
`creationDate = {seconds: 1700000000, nanos: 0}`, `backupJobId = job-42`)
the resolver's `S3Prefix` ends in `/Y=2023/M=11/D=14/job-42` (indeed equals
the ARN's segments joined by `/` followed by that date path) and
`SnapshotId = snap-0123`; and in general the prefix is the `:`-split ARN
segments joined by `/`, followed by the padded UTC
`Y=`/`M=`/`D=` components and the job id. -/
theorem s3Prefix_scenario :
    ((metadataHandler sampleEnv 0 evEbs).1.metadata.map
       SnapshotMetadata.S3Prefix) = some
      "arn/aws/ec2/us-east-1/123456789012/volume/vol-0123/Y=2023/M=11/D=14/job-42" ∧
    ((metadataHandler sampleEnv 0 evEbs).1.metadata.map
       SnapshotMetadata.SnapshotId) = some "snap-0123" ∧
    ("/Y=2023/M=11/D=14/job-42".data.isSuffixOf
      (s3PrefixChars evEbs.resourceArn.data 1700000000 0 "job-42".data))
      = true ∧
    ∀ (arn j : List Char) (s n : Int), s3PrefixChars arn s n j =
      joinChar '/' (splitOnChar ':' arn) ++ '/' ::
        (('Y' :: '=' :: padStart 4 '0' (intToDec (creationUTCDate s n).1))
          ++ '/' ::
         (('M' :: '=' :: padStart 2 '0' (natToDec (creationUTCDate s n).2.1))
          ++ '/' ::
          (('D' :: '=' :: padStart 2 '0'
              (natToDec (creationUTCDate s n).2.2)) ++ '/' :: j))) := by
  refine ⟨by decide, by decide, by decide, ?_⟩
  intro arn j s n
  rw [s3PrefixChars,
    joinChar_append '/' _ _ (splitOnChar_ne_nil ':' arn) (by simp)]
  rfl

/-- C3 counterexample: two valid COMPLETED jobs with identical
`resourceArn` and `backupJobId` whose `creationDate`s differ (by one
second, within the same UTC day) receive the identical `S3Prefix`; and two
valid COMPLETED jobs that differ only in the ARN (`:` versus `/` before
the final segment) also receive the identical prefix — so distinct
`(resourceArn, creationDate, jobId)` tuples do not always yield distinct
prefixes. -/
theorem s3Prefix_collision :
    ((metadataHandler sampleEnv 0 evEbs).1.metadata.map
       SnapshotMetadata.S3Prefix) =
      ((metadataHandler sampleEnv 0 evEbsLater).1.metadata.map
       SnapshotMetadata.S3Prefix) ∧
    ((metadataHandler sampleEnv 0 evEbs).1.metadata.map
       SnapshotMetadata.S3Prefix).isSome = true ∧
    evEbs.creationDateSeconds ≠ evEbsLater.creationDateSeconds ∧
    evEbs.resourceArn = evEbsLater.resourceArn ∧
    evEbs.backupJobId = evEbsLater.backupJobId ∧
    evEbs.state = "COMPLETED" ∧ evEbsLater.state = "COMPLETED" ∧
    ((metadataHandler sampleEnv 0 evEbs).1.metadata.map
       SnapshotMetadata.S3Prefix) =
      ((metadataHandler sampleEnv 0 evColon).1.metadata.map
       SnapshotMetadata.S3Prefix) ∧
    evEbs.resourceArn ≠ evColon.resourceArn ∧
    arnValidate evEbs.resourceArn = true ∧
    arnValidate evColon.resourceArn = true ∧
    evEbs.creationDateSeconds = evColon.creationDateSeconds ∧
    evEbs.backupJobId = evColon.backupJobId := by
  refine ⟨by decide, by decide, by decide, by decide, by decide, by decide,
    by decide, by decide, by decide, by decide, by decide, by decide,
    by decide⟩

theorem intToDec_of_nonneg {z : Int} (h : 0 ≤ z) :
    intToDec z = natToDec z.toNat := by
  rw [intToDec, if_neg (by omega)]

theorem civilFromDays_year_nonneg (z : Int) (hz : 0 ≤ z) :
    0 ≤ (civilFromDays z).1 := by
  have hera : 0 ≤ Int.fdiv (z + 719468) 146097 :=
    Int.fdiv_nonneg (by omega) (by norm_num)
  rw [civilFromDays]
  dsimp only
  split <;> split
  all_goals first
    | exact add_nonneg (add_nonneg (Int.natCast_nonneg _)
        (mul_nonneg hera (by norm_num))) (by norm_num)
    | exact add_nonneg (Int.natCast_nonneg _)
        (mul_nonneg hera (by norm_num))

theorem creationUTCDate_year_nonneg (s n : Int) (hs : 0 ≤ s) (hn : 0 ≤ n) :
    0 ≤ (creationUTCDate s n).1 := by
  rw [creationUTCDate]
  apply civilFromDays_year_nonneg
  apply Int.fdiv_nonneg _ (by norm_num)
  rw [creationMs]
  have h1 : 0 ≤ Int.fdiv n 1000000 := Int.fdiv_nonneg hn (by norm_num)
  have h2 : 0 ≤ s * 1000 := mul_nonneg hs (by norm_num)
  omega

theorem not_slash_mem_dateChunk {a b : Char} (ha : a ≠ '/') (hb : b ≠ '/')
    (w n : Nat) : '/' ∉ a :: b :: padStart w '0' (natToDec n) := by
  intro hc
  rcases List.mem_cons.mp hc with h | h
  · exact ha h.symm
  rcases List.mem_cons.mp h with h' | h'
  · exact hb h'.symm
  · exact not_slash_mem_padStart_natToDec w n h'

/-- C3 (amended): the resolver's `S3Prefix` is a pure function of the
inputs (deterministic), but it identifies creation instants within the
same UTC calendar day; for ARNs whose `:`-segments contain no `/` and
slash-free job ids, two prefixes are equal exactly when the ARN, the UTC
`(year, month, day)` of `creationDate`, and the job id agree — so
uniqueness holds only up to the UTC day, not per distinct
`(resourceArn, creationDate, jobId)` tuple. -/
theorem s3Prefix_injective_up_to_utc_day
    (arn₁ arn₂ j₁ j₂ : List Char) (s₁ n₁ s₂ n₂ : Int)
    (ha₁ : ∀ p ∈ splitOnChar ':' arn₁, '/' ∉ p)
    (ha₂ : ∀ p ∈ splitOnChar ':' arn₂, '/' ∉ p)
    (hj₁ : '/' ∉ j₁) (hj₂ : '/' ∉ j₂)
    (hs₁ : 0 ≤ s₁) (hn₁ : 0 ≤ n₁) (hs₂ : 0 ≤ s₂) (hn₂ : 0 ≤ n₂) :
    s3PrefixChars arn₁ s₁ n₁ j₁ = s3PrefixChars arn₂ s₂ n₂ j₂ ↔
      (arn₁ = arn₂ ∧ creationUTCDate s₁ n₁ = creationUTCDate s₂ n₂ ∧
        j₁ = j₂) := by
  have hy₁ : 0 ≤ (creationUTCDate s₁ n₁).1 :=
    creationUTCDate_year_nonneg s₁ n₁ hs₁ hn₁
  have hy₂ : 0 ≤ (creationUTCDate s₂ n₂).1 :=
    creationUTCDate_year_nonneg s₂ n₂ hs₂ hn₂
  constructor
  · intro h
    rw [s3PrefixChars, s3PrefixChars, intToDec_of_nonneg hy₁,
      intToDec_of_nonneg hy₂] at h
    have hfree : ∀ (arn j : List Char) (d : Int × Nat × Nat),
        (∀ p ∈ splitOnChar ':' arn, '/' ∉ p) → '/' ∉ j →
        ∀ p ∈ splitOnChar ':' arn ++
          [('Y' :: '=' :: padStart 4 '0' (natToDec d.1.toNat)),
           ('M' :: '=' :: padStart 2 '0' (natToDec d.2.1)),
           ('D' :: '=' :: padStart 2 '0' (natToDec d.2.2)), j], '/' ∉ p := by
      intro arn j d hsegs hjob p hp
      rcases List.mem_append.mp hp with h' | h'
      · exact hsegs p h'
      rcases List.mem_cons.mp h' with h' | h'
      · exact h' ▸ not_slash_mem_dateChunk (by decide) (by decide) 4 _
      rcases List.mem_cons.mp h' with h' | h'
      · exact h' ▸ not_slash_mem_dateChunk (by decide) (by decide) 2 _
      rcases List.mem_cons.mp h' with h' | h'
      · exact h' ▸ not_slash_mem_dateChunk (by decide) (by decide) 2 _
      rcases List.mem_cons.mp h' with h' | h'
      · exact h' ▸ hjob
      · exact absurd h' (List.not_mem_nil p)
    have hlist := joinChar_injective '/' (by simp) (by simp)
      (hfree arn₁ j₁ (creationUTCDate s₁ n₁) ha₁ hj₁)
      (hfree arn₂ j₂ (creationUTCDate s₂ n₂) ha₂ hj₂) h
    obtain ⟨hseg, htail⟩ := List.append_inj' hlist rfl
    have harn : arn₁ = arn₂ := splitOnChar_injective ':' hseg
    injection htail with hY htail
    injection htail with hM htail
    injection htail with hD htail
    injection htail with hj _
    injection hY with _ hY
    injection hY with _ hY
    injection hM with _ hM
    injection hM with _ hM
    injection hD with _ hD
    injection hD with _ hD
    have hy : (creationUTCDate s₁ n₁).1 = (creationUTCDate s₂ n₂).1 := by
      have := padStart_natToDec_injective 4 hY
      omega
    have hm : (creationUTCDate s₁ n₁).2.1 = (creationUTCDate s₂ n₂).2.1 :=
      padStart_natToDec_injective 2 hM
    have hd : (creationUTCDate s₁ n₁).2.2 = (creationUTCDate s₂ n₂).2.2 :=
      padStart_natToDec_injective 2 hD
    exact ⟨harn, Prod.ext_iff.mpr ⟨hy, Prod.ext_iff.mpr ⟨hm, hd⟩⟩, hj⟩
  · rintro ⟨h1, h2, h3⟩
    rw [s3PrefixChars, s3PrefixChars, h1, h2, h3]

/-- C3 (amended) witness: at a slash-free RDS snapshot ARN, two creation
instants 50 seconds apart on the same UTC day give the same prefix via the
amended characterization. -/
theorem s3Prefix_injective_up_to_utc_day_witness :
    s3PrefixChars "arn:aws:rds:us-east-1:123456789012:snapshot:mydb".data
      1700000000 0 "job-1".data =
    s3PrefixChars "arn:aws:rds:us-east-1:123456789012:snapshot:mydb".data
      1700000050 0 "job-1".data :=
  (s3Prefix_injective_up_to_utc_day
    "arn:aws:rds:us-east-1:123456789012:snapshot:mydb".data
    "arn:aws:rds:us-east-1:123456789012:snapshot:mydb".data
    "job-1".data "job-1".data 1700000000 0 1700000050 0
    (by decide) (by decide) (by decide) (by decide)
    (by norm_num) le_rfl (by norm_num) le_rfl).mpr
    ⟨rfl, by decide, rfl⟩

end BackupActions
